import Mathlib

/-!
Shallow embedding of the media-production and assembly pipeline of
`superhack_gemini` (files `src/backend/video_utils.py`,
`src/backend/veo_agent.py`, `src/backend/orchestration.py`).

External effects are modelled explicitly:
* the local file system is a predicate `FileSys` (`os.path.exists`);
* remote services (Veo generation, video download, YouTube search,
  content analysis, the LLM calls) are environments of functions
  returning `Except String _`, where `.error msg` models a raised
  exception carrying `str(e) = msg`;
* writing the final video is modelled by the `completed` constructor of
  `AssemblyResult`, carrying the ordered sequence of media units that
  `ffmpeg.concat` joins; `failed` means no output file is written.
-/

namespace SuperHack

/-- The local file system: `fs p = true` iff `os.path.exists(p)`. -/
abbrev FileSys := String → Bool

/-- Python truthiness of an optional string (`None` and `""` are falsy). -/
def truthyStr : Option String → Bool
  | none => false
  | some s => !s.isEmpty

/-! ### video_utils.combine_videos -/

/-- The loop of `combine_videos` that builds `inputs`: paths that do not
exist on disk are skipped with a printed warning, existing ones are
appended in order. -/
def keptInputs (fs : FileSys) (video_paths : List String) : List String :=
  video_paths.foldl (fun acc path => if fs path then acc ++ [path] else acc) []

/-- `video_utils.combine_videos`: raises when the input list is empty,
skips missing files, raises when nothing remains, otherwise concatenates
the surviving paths in order into the output file (`.ok` carries the
ordered sequence of concatenated units). -/
def combine_videos (fs : FileSys) (video_paths : List String) :
    Except String (List String) :=
  if video_paths.isEmpty then
    Except.error "No video paths provided for combination."
  else
    let inputs := keptInputs fs video_paths
    if inputs.isEmpty then Except.error "No valid video inputs found."
    else Except.ok inputs

/-! ### orchestration.assembly_node -/

/-- A record of `state['retrieved_clips']` as read by `assembly_node`
(`clip.get('segment_order', 0)`, `clip.get('video_path')`). -/
structure RetrievedClip where
  segment_order : Option Int
  video_path : Option String
  deriving DecidableEq

/-- A record of `state['veo_generated_videos']` as read by `assembly_node`
(`video.get('segment_order', 0)`, `video.get('local_path')`). -/
structure VeoVideo where
  segment_order : Option Int
  local_path : Option String
  deriving DecidableEq

/-- An entry of the `all_clips` list built inside `assembly_node`. -/
structure ClipEntry where
  order : Int
  path : Option String
  type : String
  deriving DecidableEq

/-- The normalization loops of `assembly_node` that build `all_clips`. -/
def toClipEntries (retrieved : List RetrievedClip) (veo : List VeoVideo) :
    List ClipEntry :=
  retrieved.map (fun c => ⟨c.segment_order.getD 0, c.video_path, "real_clip"⟩)
    ++ veo.map (fun v => ⟨v.segment_order.getD 0, v.local_path, "ai_generated"⟩)

/-- The comparison used by `sorted(all_clips, key=lambda x: x['order'])`. -/
def clipLE (a b : ClipEntry) : Prop := a.order ≤ b.order

instance : DecidableRel clipLE := fun a b => inferInstanceAs (Decidable (a.order ≤ b.order))

instance : IsTotal ClipEntry clipLE := ⟨fun a b => le_total a.order b.order⟩

instance : IsTrans ClipEntry clipLE := ⟨fun _ _ _ h h' => le_trans h h'⟩

/-- `sorted(all_clips, key=lambda x: x['order'])`: Python's `sorted` is a
stable ascending sort, modelled by the stable `List.insertionSort`. -/
def sortClips (l : List ClipEntry) : List ClipEntry :=
  List.insertionSort clipLE l

/-- Whether the per-clip check `if path and os.path.exists(path)` passes. -/
def clipGood (fs : FileSys) (c : ClipEntry) : Bool :=
  truthyStr c.path && fs (c.path.getD "")

/-- The `video_paths` accumulator of the strict-check loop. -/
def clipPaths (fs : FileSys) (l : List ClipEntry) : List String :=
  l.foldl (fun acc c => if clipGood fs c then acc ++ [c.path.getD ""] else acc) []

/-- The `missing_files` accumulator of the strict-check loop
(`missing_files.append(path or f"unknown_path_seg_{clip['order']}")`). -/
def missingFiles (fs : FileSys) (l : List ClipEntry) : List String :=
  l.foldl (fun acc c =>
    if clipGood fs c then acc
    else acc ++ [if truthyStr c.path then c.path.getD ""
                 else "unknown_path_seg_" ++ toString c.order]) []

/-- Outcome of `assembly_node`: `failed e` models the return value
`{"current_phase": "assembly_failed", "error": e}` with no output file
written; `completed out` models `{"current_phase": "completed",
"final_video_path": ...}` with an output file written whose content is
the ordered unit sequence `out`. -/
inductive AssemblyResult where
  | failed (error : String)
  | completed (output : List String)
  deriving DecidableEq

/-- `orchestration.assembly_node`: normalizes the two record lists into
`all_clips`, fails when no records at all were produced, sorts by
`order`, fails when a listed record's path is missing on disk
(enumerating the missing paths), otherwise concatenates via
`combine_videos` (an exception there is caught into `assembly_failed`). -/
def assembly_node (fs : FileSys) (retrieved_clips : List RetrievedClip)
    (veo_videos : List VeoVideo) : AssemblyResult :=
  let all_clips := toClipEntries retrieved_clips veo_videos
  if all_clips.isEmpty then
    AssemblyResult.failed "No clips (Veo or Real) to assemble"
  else
    let sorted_clips := sortClips all_clips
    let video_paths := clipPaths fs sorted_clips
    let missing_files := missingFiles fs sorted_clips
    if !missing_files.isEmpty then
      AssemblyResult.failed
        ("Missing video files for assembly: " ++ String.intercalate ", " missing_files)
    else if video_paths.isEmpty then
      AssemblyResult.failed "No valid video files found"
    else
      match combine_videos fs video_paths with
      | Except.ok out => AssemblyResult.completed out
      | Except.error e => AssemblyResult.failed e

/-! ### veo_agent.py: error classification and retry wrapper -/

/-- Whether `needle` is a prefix of `hay` (character lists). -/
def charsStartWith : List Char → List Char → Bool
  | [], _ => true
  | _ :: _, [] => false
  | a :: as, b :: bs => a == b && charsStartWith as bs

/-- Whether `needle` occurs as a contiguous substring of `hay`. -/
def charsContain (needle : List Char) : List Char → Bool
  | [] => needle.isEmpty
  | b :: bs => charsStartWith needle (b :: bs) || charsContain needle bs

/-- ASCII lowercasing of one character (`str.lower` on the alphabets the
classifier compares against). -/
def lowerChar (c : Char) : Char :=
  if 'A' ≤ c && c ≤ 'Z' then Char.ofNat (c.toNat + 32) else c

/-- `str(e).lower()` as a character list. -/
def lowerChars (s : String) : List Char := s.data.map lowerChar

/-- The transient-error classification of `VeoAgent._with_retry`:
`'overloaded' in msg or '503' in msg or 'rate limit' in msg or '429' in msg`
on the lowercased message. -/
def isTransientError (msg : String) : Bool :=
  charsContain "overloaded".data (lowerChars msg)
    || charsContain "503".data (lowerChars msg)
    || charsContain "rate limit".data (lowerChars msg)
    || charsContain "429".data (lowerChars msg)

/-- The retry loop of `VeoAgent._with_retry`. `fn i` is the outcome of the
`(i+1)`-th call of the wrapped function (an effectful Python callable is
modelled as a function of the attempt index); the fuel is the remaining
loop iterations, the second argument counts calls made so far, the third
is `last_error`. Returns the total number of calls together with the
final outcome (`.error` models the raised exception). -/
def withRetryAux {α : Type} (fn : Nat → Except String α) :
    Nat → Nat → Option String → Nat × Except String α
  | 0, attempts, last_error => (attempts, Except.error (last_error.getD ""))
  | fuel + 1, attempts, _ =>
    match fn attempts with
    | Except.ok a => (attempts + 1, Except.ok a)
    | Except.error e =>
      if isTransientError e then withRetryAux fn fuel (attempts + 1) (some e)
      else (attempts + 1, Except.error e)

/-- `VeoAgent._with_retry(fn, max_retries)`: retries transient errors with
backoff up to `max_retries` total attempts, re-raises the last transient
error when exhausted, and propagates a non-transient error immediately. -/
def with_retry {α : Type} (fn : Nat → Except String α) (max_retries : Nat) :
    Nat × Except String α :=
  withRetryAux fn max_retries 0 none

/-! ### veo_agent.py: credential rotation pool -/

/-- The credential pool state: `api_keys` as built in `VeoAgent.__init__`
(constructor raises when empty) and the position of the
`itertools.cycle` iterator over `client_pool`. -/
structure VeoAgentState where
  api_keys : List String
  pool_pos : Nat
  deriving DecidableEq

/-- `VeoAgent._get_client_and_key`: `next(self._pool_cycle)` — returns the
key at the current cycle position and advances the iterator. (The client
is bound 1-1 to its key in `client_pool`, so only the key is tracked.) -/
def get_client_and_key (s : VeoAgentState) : String × VeoAgentState :=
  (s.api_keys.getD (s.pool_pos % s.api_keys.length) "",
   { s with pool_pos := s.pool_pos + 1 })

/-- The pool state before the `(n+1)`-th selector call on a fresh agent. -/
def selectorState (keys : List String) : Nat → VeoAgentState
  | 0 => ⟨keys, 0⟩
  | n + 1 => (get_client_and_key (selectorState keys n)).2

/-- The credential returned by the `(n+1)`-th selector call (0-based `n`)
on a fresh agent built over `keys`. -/
def selectorNth (keys : List String) (n : Nat) : String :=
  (get_client_and_key (selectorState keys n)).1

/-- Credential use of `VeoAgent.generate_video` on the happy path:
`refine_prompt` consumes one rotation call (one per retry attempt; one
attempt here), then `client, api_key = self._get_client_and_key()` draws
the submit credential, which is also returned in the result dict
(`"api_key": api_key  # Return the key used (needed for download)`). -/
def generate_video_key (s : VeoAgentState) : String × VeoAgentState :=
  let s1 := (get_client_and_key s).2
  get_client_and_key s1

/-- Credential resolution of `VeoAgent.download_video`:
`key_to_use = api_key or (self.api_keys[0] if self.api_keys else None)`,
raising `ValueError` when nothing is available. -/
def download_video_key (keys : List String) (api_key : Option String) :
    Except String String :=
  let fallback := keys.head?
  let key_to_use := if truthyStr api_key then api_key else fallback
  match key_to_use with
  | some k => Except.ok k
  | none => Except.error "API key required for download"

/-- The credential the download actually uses on the orchestration path:
`process_single_segment` calls
`veo_agent.download_video(result['video_uri'], video_path)` with NO
`api_key` argument (as does `generate_segment_videos`). -/
def orchestration_download_key (keys : List String) : Except String String :=
  download_video_key keys none

/-! ### orchestration.py: script data and media production -/

/-- A script segment as consumed by the media-production pipeline
(`seg.get('order')`, `seg.get('type')`, `seg.get('duration_seconds', 8)`,
`seg.get('search_query')`; the flat-structure fields not read by the
pipeline control flow are omitted). -/
structure Seg where
  order : Int
  type : String
  duration_seconds : Int
  search_query : Option String
  deriving DecidableEq

/-- The script as consumed by media production (`script.get('segments', [])`). -/
structure Script where
  segments : List Seg
  deriving DecidableEq

/-- The result dict of `VeoAgent.generate_video` (fields read downstream). -/
structure GenResult where
  video_uri : String
  api_key : String
  segment_order : Int
  deriving DecidableEq

/-- The external Veo service as seen by one run: `generate seg` is the
outcome of `veo_agent.generate_video(seg)` (refine + submit + poll + URI
extraction; `.error` models any raised exception), `download uri path` the
outcome of `veo_agent.download_video(uri, path)`. -/
structure VeoEnv where
  generate : Seg → Except String GenResult
  download : String → String → Except String Unit

/-- Observable actions of one segment task, used to state the stagger
schedule: the sleeps executed and the remote calls issued, in order. -/
inductive Event where
  | sleep (seconds : Nat)
  | remoteCall (descr : String)
  deriving DecidableEq

/-- Outcome dict of `process_single_segment`: `{"status": "success",
"data": ...}` (with `local_path` patched in) or `{"status": "error",
"error": ..., "segment_order": ...}`. -/
inductive SegStatus where
  | success (data : GenResult) (local_path : String)
  | error (msg : String) (segment_order : Int)
  deriving DecidableEq

/-- The directory `videos/veo_generated` used for Veo downloads. -/
def veo_video_dir : String := "videos/veo_generated"

/-- `process_single_segment(seg, delay)` from `process_veo_segments`:
sleeps `delay` first (skipped when 0), then generates, downloads to
`veo_segment_{order}.mp4` and patches `local_path` in; any exception is
caught into an error record with the segment's order. The second
component is the task's event trace. -/
def process_single_segment (env : VeoEnv) (seg : Seg) (delay : Nat) :
    SegStatus × List Event :=
  let pre := if delay > 0 then [Event.sleep delay] else []
  match env.generate seg with
  | Except.error e =>
    (SegStatus.error e seg.order, pre ++ [Event.remoteCall "generate"])
  | Except.ok r =>
    let video_path := veo_video_dir ++ "/veo_segment_" ++ toString seg.order ++ ".mp4"
    match env.download r.video_uri video_path with
    | Except.error e =>
      (SegStatus.error e seg.order,
        pre ++ [Event.remoteCall "generate", Event.remoteCall "download"])
    | Except.ok _ =>
      (SegStatus.success r video_path,
        pre ++ [Event.remoteCall "generate", Event.remoteCall "download"])

/-- `[s for s in segments if s.get('type') == 'ai_generated']`. -/
def aiSegments (script : Script) : List Seg :=
  script.segments.filter (fun s => s.type == "ai_generated")

/-- `[process_single_segment(s, i * 6) for i, s in enumerate(ai_segments)]`:
the task list with the per-task stagger delays, `i` starting at the first
argument. -/
def staggerTasks : Nat → List Seg → List (Seg × Nat)
  | _, [] => []
  | i, s :: rest => (s, i * 6) :: staggerTasks (i + 1) rest

/-- The staggered Veo task list of `process_veo_segments`. -/
def veoTasks (script : Script) : List (Seg × Nat) :=
  staggerTasks 0 (aiSegments script)

/-- Result of `process_veo_segments`: the `generated` successes (data with
its `local_path`) and the `failed` records (error message, segment order). -/
structure VeoResults where
  generated : List (GenResult × String)
  failed : List (String × Int)
  deriving DecidableEq

/-- `process_veo_segments`: runs every staggered task (each to completion;
`asyncio.gather` without cancellation) and splits the outcomes by status. -/
def process_veo_segments (env : VeoEnv) (script : Script) : VeoResults :=
  let results := (veoTasks script).map (fun t => (process_single_segment env t.1 t.2).1)
  { generated := results.filterMap (fun r => match r with
      | SegStatus.success d p => some (d, p)
      | SegStatus.error _ _ => none),
    failed := results.filterMap (fun r => match r with
      | SegStatus.error e o => some (e, o)
      | SegStatus.success _ _ => none) }

/-- The external world of one clip task: `search q` is the outcome of
`youtube_scraper_tool.invoke({"query": q})`, `retrieve url` the outcome of
`retrieve_video(url)` (returning the downloaded local path), and
`analyzeCut seg path` the outcome of the upload → Gemini analysis →
`cut_video` chain (returning the cut clip's path); `.error` models any
raised exception in the corresponding step. -/
structure ClipEnv where
  search : String → Except String (List String)
  retrieve : String → Except String String
  analyzeCut : Seg → String → Except String String

/-- The per-clip result dict built by `process_single_clip`. -/
structure ClipRecord where
  segment_order : Int
  query : String
  error : Option String
  video_path : Option String
  deriving DecidableEq

/-- `process_single_clip(seg)` from `process_clip_workflow`: returns `None`
when there is no (truthy) query or the search yields no candidates;
otherwise retrieves and analyzes/cuts the top candidate; any exception is
caught into a record with `error` set and no `video_path`. -/
def process_single_clip (env : ClipEnv) (seg : Seg) : Option ClipRecord :=
  match seg.search_query with
  | none => none
  | some query =>
    if query.isEmpty then none
    else
      match env.search query with
      | Except.error e => some ⟨seg.order, query, some e, none⟩
      | Except.ok [] => none
      | Except.ok (best_url :: _) =>
        match env.retrieve best_url with
        | Except.error e => some ⟨seg.order, query, some e, none⟩
        | Except.ok video_path =>
          match env.analyzeCut seg video_path with
          | Except.error e => some ⟨seg.order, query, some e, none⟩
          | Except.ok output_path => some ⟨seg.order, query, none, some output_path⟩

/-- `[s for s in segments if s.get('type') == 'real_clip']`. -/
def clipSegments (script : Script) : List Seg :=
  script.segments.filter (fun s => s.type == "real_clip")

/-- `process_clip_workflow`: runs every clip task and keeps
`[r for r in results if r is not None and r.get('video_path')]` —
only records with a truthy `video_path` survive. -/
def process_clip_workflow (env : ClipEnv) (script : Script) : List ClipRecord :=
  (((clipSegments script).map (process_single_clip env)).filterMap id).filter
    (fun r => truthyStr r.video_path)

/-- The partial state update returned by `media_production_logic`
(a LangGraph node's return dict: `none` = key absent, old value kept). -/
structure MediaUpdate where
  veo_generated_videos : Option (List (GenResult × String))
  veo_failed_videos : Option (List (String × Int))
  retrieved_clips : Option (List ClipRecord)
  current_phase : Option String
  error : Option String
  deriving DecidableEq

/-- `media_production_logic`: without a script returns only
`{"error": "No script found"}`; otherwise runs the Veo and clip workflows
(concurrently via `asyncio.gather`; both always run to completion) and
reports `current_phase = "media_produced"` regardless of per-segment
failures. -/
def media_production_logic (venv : VeoEnv) (cenv : ClipEnv)
    (script : Option Script) : MediaUpdate :=
  match script with
  | none => ⟨none, none, none, none, some "No script found"⟩
  | some sc =>
    let veo := process_veo_segments venv sc
    let clips := process_clip_workflow cenv sc
    ⟨some veo.generated, some veo.failed, some clips, some "media_produced", none⟩

/-! ### orchestration.py: the stage graph -/

/-- The shared `NarrativeState` (fields driving control flow; `messages`
and `research_results` are collapsed to the query list actually read). -/
structure NState where
  prompt : String
  research_queries : List String
  research_context : Option String
  script : Option Script
  retrieved_clips : List ClipRecord
  veo_generated_videos : List (GenResult × String)
  veo_failed_videos : List (String × Int)
  current_phase : String
  error : Option String
  final_output : Option (List String)
  deriving DecidableEq

/-- The external services consumed by the whole graph run: the fanout
LLM's extracted queries, `google_search.invoke` per query, the structured
script-generation LLM call, the two media environments, and the file
system. -/
structure GraphEnv where
  fanout_queries : List String
  search : String → Except String String
  gen_script : Except String Script
  venv : VeoEnv
  cenv : ClipEnv
  fs : FileSys

/-- `fanout_search_node`: stores the extracted queries in
`research_results` (no phase written). -/
def fanout_search_node (env : GraphEnv) (s : NState) : NState :=
  { s with research_queries := env.fanout_queries }

/-- `research_node`: fails with `research_failed` when there are no
queries; otherwise searches each query (a per-query exception is printed
and skipped) and writes `research_completed`. -/
def research_node (env : GraphEnv) (s : NState) : NState :=
  if s.research_queries.isEmpty then
    { s with current_phase := "research_failed", error := some "No queries to research" }
  else
    let context := s.research_queries.foldl (fun acc q =>
      match env.search q with
      | Except.ok r => acc ++ ["Query: " ++ q ++ "\nResult: " ++ r]
      | Except.error _ => acc) []
    { s with research_context := some (String.intercalate "\n\n" context),
             current_phase := "research_completed" }

/-- `script_generation_node`: writes the script and `script_generated`,
or on exception the error and `script_failed`. -/
def script_generation_node (env : GraphEnv) (s : NState) : NState :=
  match env.gen_script with
  | Except.ok sc => { s with script := some sc, current_phase := "script_generated" }
  | Except.error e => { s with error := some e, current_phase := "script_failed" }

/-- `media_production_node`: merges the partial update of
`media_production_logic` into the state (LangGraph overwrites exactly the
returned keys). -/
def media_production_node (env : GraphEnv) (s : NState) : NState :=
  let u := media_production_logic env.venv env.cenv s.script
  { s with
    veo_generated_videos := u.veo_generated_videos.getD s.veo_generated_videos,
    veo_failed_videos := u.veo_failed_videos.getD s.veo_failed_videos,
    retrieved_clips := u.retrieved_clips.getD s.retrieved_clips,
    current_phase := u.current_phase.getD s.current_phase,
    error := match u.error with
      | some e => some e
      | none => s.error }

/-- The records of `state['retrieved_clips']` as `assembly_node` reads them. -/
def toRetrievedClip (r : ClipRecord) : RetrievedClip :=
  ⟨some r.segment_order, r.video_path⟩

/-- The records of `state['veo_generated_videos']` as `assembly_node` reads
them (`data` with its `local_path`). -/
def toVeoVideo (v : GenResult × String) : VeoVideo :=
  ⟨some v.1.segment_order, some v.2⟩

/-- The assembly stage applied to the shared state. -/
def assembly_graph_node (env : GraphEnv) (s : NState) : NState :=
  match assembly_node env.fs (s.retrieved_clips.map toRetrievedClip)
      (s.veo_generated_videos.map toVeoVideo) with
  | AssemblyResult.failed e =>
    { s with current_phase := "assembly_failed", error := some e }
  | AssemblyResult.completed out =>
    { s with final_output := some out, current_phase := "completed" }

/-- Dispatch a node name to its stage function (the nodes registered by
`builder.add_node`). -/
def applyNode (env : GraphEnv) (name : String) (s : NState) : NState :=
  if name == "search_fanout" then fanout_search_node env s
  else if name == "researcher" then research_node env s
  else if name == "script_generator" then script_generation_node env s
  else if name == "media_production" then media_production_node env s
  else if name == "assembly" then assembly_graph_node env s
  else s

/-- The edge list of `builder`: every edge is an unconditional
`builder.add_edge`; the graph has no conditional edges. -/
def graph_edges : List (String × String) :=
  [("START", "search_fanout"), ("search_fanout", "researcher"),
   ("researcher", "script_generator"), ("script_generator", "media_production"),
   ("media_production", "assembly"), ("assembly", "END")]

/-- Execution of the compiled `StateGraph` from node `n`: invoke the node,
record it in the trace, follow the unique outgoing edge until `END`.
The fuel bounds the number of supersteps (the graph is a finite chain). -/
def runFrom (env : GraphEnv) : Nat → String → NState → List String → NState × List String
  | 0, _, s, trace => (s, trace)
  | fuel + 1, n, s, trace =>
    if n == "END" then (s, trace)
    else
      let s' := applyNode env n s
      let trace' := trace ++ [n]
      match List.lookup n graph_edges with
      | some m => runFrom env fuel m s' trace'
      | none => (s', trace')

/-- `graph.invoke`: run from the successor of `START`; the second
component is the sequence of invoked node functions. -/
def run_graph (env : GraphEnv) (s0 : NState) : NState × List String :=
  match List.lookup "START" graph_edges with
  | some n => runFrom env 8 n s0 []
  | none => (s0, [])

/-- The initial state built by `run_workflow`. -/
def initial_state (p : String) : NState :=
  ⟨p, [], none, none, [], [], [], "starting", none, none⟩

/-- Sum of the sleeps a task performs before its first remote call. -/
def delayBeforeFirstCall : List Event → Nat
  | [] => 0
  | Event.sleep n :: t => n + delayBeforeFirstCall t
  | Event.remoteCall _ :: _ => 0

/-! ### Concrete fixtures for counterexamples and witnesses -/

/-- A two-segment real-clip script: segment 1 and segment 2. -/
def scriptTwoClips : Script :=
  ⟨[⟨1, "real_clip", 8, some "q1"⟩, ⟨2, "real_clip", 8, some "q2"⟩]⟩

/-- A clip environment where segment 1's pipeline fully succeeds and
segment 2's search raises. -/
def cenvSeg2Fails : ClipEnv :=
  ⟨fun q => if q == "q2" then Except.error "boom" else Except.ok ["u1"],
   fun _ => Except.ok "dl1.mp4",
   fun _ _ => Except.ok "cut1.mp4"⟩

/-- A Veo environment where every call succeeds. -/
def venvAllOk : VeoEnv :=
  ⟨fun s => Except.ok ⟨"uri_" ++ toString s.order, "k1", s.order⟩,
   fun _ _ => Except.ok ()⟩

/-- A file system on which exactly the fixture clip files exist. -/
def fsFixture : FileSys :=
  fun p => p == "cut1.mp4" || p == "a.mp4" || p == "b.mp4"
    || p == veo_video_dir ++ "/veo_segment_1.mp4"
    || p == veo_video_dir ++ "/veo_segment_3.mp4"

/-- A three-segment mixed script with distinct orders, listed out of
ascending order on the retrieval side fixtures. -/
def scriptMixed : Script :=
  ⟨[⟨1, "ai_generated", 8, none⟩, ⟨2, "real_clip", 8, some "q1"⟩,
    ⟨3, "ai_generated", 8, none⟩]⟩

/-- A graph environment whose fanout produces no queries. -/
def genvNoQueries : GraphEnv :=
  ⟨[], fun _ => Except.ok "stub result", Except.error "llm unavailable",
   venvAllOk, cenvSeg2Fails, fsFixture⟩

/-- A Veo environment where generation fails exactly for segment order 3. -/
def venvSeg3Fails : VeoEnv :=
  ⟨fun s => if s.order == 3 then Except.error "veo down"
            else Except.ok ⟨"uri_" ++ toString s.order, "k1", s.order⟩,
   fun _ _ => Except.ok ()⟩

/-- Retrieved-clip records for `scriptMixed`'s real-clip segment 2. -/
def retrievedFix : List RetrievedClip := [⟨some 2, some "cut1.mp4"⟩]

/-- Veo records for `scriptMixed`'s AI segments 1 and 3 (with the local
paths `process_single_segment` downloads to). -/
def veoFix : List VeoVideo :=
  [⟨some 1, some (veo_video_dir ++ "/veo_segment_1.mp4")⟩,
   ⟨some 3, some (veo_video_dir ++ "/veo_segment_3.mp4")⟩]

/-! ### Basic lemmas about the loops -/

theorem keptInputs_eq_filter (fs : FileSys) (ps : List String) :
    keptInputs fs ps = ps.filter fs := by
  suffices h : ∀ acc, ps.foldl (fun acc path => if fs path then acc ++ [path] else acc) acc
      = acc ++ ps.filter fs by
    simpa [keptInputs] using h []
  induction ps with
  | nil => intro acc; simp
  | cons p t ih =>
    intro acc
    by_cases hp : fs p
    · simp [List.foldl_cons, hp, ih]
    · simp [List.foldl_cons, hp, ih]

theorem clipPaths_eq_flatMap (fs : FileSys) (l : List ClipEntry) :
    clipPaths fs l = l.flatMap (fun c => if clipGood fs c then [c.path.getD ""] else []) := by
  suffices h : ∀ acc, l.foldl (fun acc c => if clipGood fs c then acc ++ [c.path.getD ""] else acc) acc
      = acc ++ l.flatMap (fun c => if clipGood fs c then [c.path.getD ""] else []) by
    simpa [clipPaths] using h []
  induction l with
  | nil => intro acc; simp
  | cons c t ih =>
    intro acc
    by_cases hc : clipGood fs c
    · simp [List.foldl_cons, hc, ih]
    · simp [List.foldl_cons, hc, ih]

theorem missingFiles_eq_flatMap (fs : FileSys) (l : List ClipEntry) :
    missingFiles fs l = l.flatMap (fun c =>
      if clipGood fs c then []
      else [if truthyStr c.path then c.path.getD ""
            else "unknown_path_seg_" ++ toString c.order]) := by
  suffices h : ∀ acc, l.foldl (fun acc c =>
      if clipGood fs c then acc
      else acc ++ [if truthyStr c.path then c.path.getD ""
                   else "unknown_path_seg_" ++ toString c.order]) acc
      = acc ++ l.flatMap (fun c =>
          if clipGood fs c then []
          else [if truthyStr c.path then c.path.getD ""
                else "unknown_path_seg_" ++ toString c.order]) by
    simpa [missingFiles] using h []
  induction l with
  | nil => intro acc; simp
  | cons c t ih =>
    intro acc
    by_cases hc : clipGood fs c
    · simp [List.foldl_cons, hc, ih]
    · simp [List.foldl_cons, hc, ih]

theorem missingFiles_eq_nil_iff (fs : FileSys) (l : List ClipEntry) :
    missingFiles fs l = [] ↔ ∀ c ∈ l, clipGood fs c = true := by
  rw [missingFiles_eq_flatMap]
  rw [List.flatMap_eq_nil_iff]
  constructor
  · intro h c hc
    have := h c hc
    by_contra hbad
    simp [hbad] at this
  · intro h c hc
    simp [h c hc]

theorem clipPaths_of_all_good (fs : FileSys) (l : List ClipEntry)
    (h : ∀ c ∈ l, clipGood fs c = true) :
    clipPaths fs l = l.map (fun c => c.path.getD "") := by
  rw [clipPaths_eq_flatMap]
  induction l with
  | nil => simp
  | cons c t ih =>
    have hc := h c (by simp)
    simp only [List.flatMap_cons, List.map_cons, hc, if_pos]
    rw [ih (fun x hx => h x (by simp [hx]))]
    simp

theorem mem_sortClips {c : ClipEntry} {l : List ClipEntry} :
    c ∈ sortClips l ↔ c ∈ l :=
  (List.perm_insertionSort clipLE l).mem_iff

/-! ### Lemmas about the retry wrapper -/

theorem withRetryAux_transient_step {α : Type} (fn : Nat → Except String α)
    (fuel attempts : Nat) (last : Option String) (msg : String)
    (h : fn attempts = Except.error msg) (ht : isTransientError msg = true) :
    withRetryAux fn (fuel + 1) attempts last
      = withRetryAux fn fuel (attempts + 1) (some msg) := by
  simp only [withRetryAux, h, ht, if_true]

theorem withRetryAux_permanent_step {α : Type} (fn : Nat → Except String α)
    (fuel attempts : Nat) (last : Option String) (msg : String)
    (h : fn attempts = Except.error msg) (ht : isTransientError msg = false) :
    withRetryAux fn (fuel + 1) attempts last = (attempts + 1, Except.error msg) := by
  simp only [withRetryAux, h, ht]
  simp

/-! ### Lemmas about assembly -/

theorem assembly_node_all_good (fs : FileSys) (retrieved : List RetrievedClip)
    (veo : List VeoVideo)
    (hne : (toClipEntries retrieved veo).isEmpty = false)
    (hAll : ∀ c ∈ toClipEntries retrieved veo, clipGood fs c = true) :
    assembly_node fs retrieved veo = AssemblyResult.completed
      ((sortClips (toClipEntries retrieved veo)).map (fun c => c.path.getD "")) := by
  have hmemAll : ∀ c ∈ sortClips (toClipEntries retrieved veo), clipGood fs c = true :=
    fun c hc => hAll c (mem_sortClips.mp hc)
  have hmiss : missingFiles fs (sortClips (toClipEntries retrieved veo)) = [] :=
    (missingFiles_eq_nil_iff _ _).mpr hmemAll
  have hpaths := clipPaths_of_all_good fs _ hmemAll
  have hsne : sortClips (toClipEntries retrieved veo) ≠ [] := by
    intro h0
    have hlen := (List.perm_insertionSort clipLE (toClipEntries retrieved veo)).length_eq
    rw [show sortClips (toClipEntries retrieved veo)
        = List.insertionSort clipLE (toClipEntries retrieved veo) from rfl] at h0
    rw [h0] at hlen
    exact List.isEmpty_eq_false.mp hne (List.length_eq_zero.mp hlen.symm)
  have hvne : (sortClips (toClipEntries retrieved veo)).map (fun c => c.path.getD "") ≠ [] := by
    simpa using hsne
  have hfsall : ∀ p ∈ (sortClips (toClipEntries retrieved veo)).map (fun c => c.path.getD ""),
      fs p = true := by
    intro p hp
    obtain ⟨c, hc, rfl⟩ := List.mem_map.mp hp
    have h := hmemAll c hc
    simp only [clipGood, Bool.and_eq_true] at h
    exact h.2
  have hcomb : combine_videos fs
      ((sortClips (toClipEntries retrieved veo)).map (fun c => c.path.getD ""))
      = Except.ok ((sortClips (toClipEntries retrieved veo)).map (fun c => c.path.getD "")) := by
    rw [combine_videos]
    rw [if_neg (by simp [List.isEmpty_eq_false.mpr hvne])]
    rw [keptInputs_eq_filter, List.filter_eq_self.mpr hfsall]
    rw [if_neg (by simp [List.isEmpty_eq_false.mpr hvne])]
  have hvfalse : ((sortClips (toClipEntries retrieved veo)).map (fun c => c.path.getD "")).isEmpty
      = false := List.isEmpty_eq_false.mpr hvne
  rw [assembly_node]
  rw [if_neg (by simp [hne])]
  simp only [hmiss, hpaths, hvfalse, hcomb, List.isEmpty_nil, Bool.not_true,
    Bool.false_eq_true, if_false]

theorem assembly_node_not_completed_of_bad (fs : FileSys)
    (retrieved : List RetrievedClip) (veo : List VeoVideo) (c : ClipEntry)
    (hc : c ∈ toClipEntries retrieved veo) (hbad : clipGood fs c = false) :
    ∀ out, assembly_node fs retrieved veo ≠ AssemblyResult.completed out := by
  intro out hout
  have hne : (toClipEntries retrieved veo).isEmpty = false := by
    cases hE : (toClipEntries retrieved veo) with
    | nil => rw [hE] at hc; cases hc
    | cons a t => simp [hE]
  have hmiss : missingFiles fs (sortClips (toClipEntries retrieved veo)) ≠ [] := by
    intro h0
    have := (missingFiles_eq_nil_iff _ _).mp h0 c (mem_sortClips.mpr hc)
    rw [hbad] at this
    cases this
  rw [assembly_node] at hout
  rw [if_neg (by simp [hne])] at hout
  rw [if_pos (by simpa using List.isEmpty_eq_false.mpr hmiss)] at hout
  cases hout

/-! ### Claim theorems -/

/-- C9: `combine_videos` silently skips every input path that does not
exist on disk and concatenates exactly the existing ones (in order); it
raises only when the path list is empty or when no listed path exists.
The second conjunct shows it producing an output from a strict subset of
its inputs. -/
theorem C9_combine_skips_missing :
    (∀ (fs : FileSys) (ps : List String), combine_videos fs ps =
      (if ps.isEmpty then Except.error "No video paths provided for combination."
       else if (ps.filter fs).isEmpty then Except.error "No valid video inputs found."
       else Except.ok (ps.filter fs)))
    ∧ combine_videos (fun p => p == "a.mp4") ["a.mp4", "missing.mp4"]
        = Except.ok ["a.mp4"] := by
  constructor
  · intro fs ps
    simp only [combine_videos, keptInputs_eq_filter]
  · rfl

/-- C10: with no media records at all, `assembly_node` reports phase
`assembly_failed` with error "No clips (Veo or Real) to assemble" and
writes no output file (the `failed` constructor), for every file system. -/
theorem C10_empty_records_assembly_failed :
    ∀ fs : FileSys, assembly_node fs [] []
      = AssemblyResult.failed "No clips (Veo or Real) to assemble" := by
  intro fs
  rfl

/-- C5: the pool selector is a round-robin over the `M ≥ 1` credentials:
the `(n+1)`-th call returns `api_keys[n % M]`, hence the `(M+1)`-th call
returns the first credential again. -/
theorem C5_rotation_cycle (keys : List String) (hM : 0 < keys.length) :
    (∀ n, selectorNth keys n = keys.getD (n % keys.length) "")
    ∧ selectorNth keys keys.length = selectorNth keys 0 := by
  have _ := hM
  have hstate : ∀ n, selectorState keys n = ⟨keys, n⟩ := by
    intro n
    induction n with
    | zero => rfl
    | succ m ih => simp [selectorState, ih, get_client_and_key]
  constructor
  · intro n
    simp [selectorNth, hstate, get_client_and_key]
  · simp [selectorNth, hstate, get_client_and_key, Nat.mod_self, Nat.zero_mod]

/-- Witness for C5 at a concrete three-credential pool: the fourth call
returns the first credential again. -/
theorem C5_rotation_cycle_witness :
    selectorNth ["k1", "k2", "k3"] 3 = selectorNth ["k1", "k2", "k3"] 0 :=
  (C5_rotation_cycle ["k1", "k2", "k3"] (by decide)).2

/-- C4: a wrapped call raising a transient (overloaded/rate-limit) error
on every attempt is attempted exactly 3 times (the cap), after which the
wrapper stops retrying and surfaces the failure (the exhausted error is
final, i.e. permanent from the caller's perspective); a wrapped call
raising a non-transient error is attempted exactly once and the error is
propagated immediately. -/
theorem C4_retry_ceiling {α : Type} (fn gn : Nat → Except String α) (e : String)
    (hfn : ∀ i, i < 3 → ∃ msg, fn i = Except.error msg ∧ isTransientError msg = true)
    (hgn : gn 0 = Except.error e) (hperm : isTransientError e = false) :
    ((with_retry fn 3).1 = 3 ∧
      ∃ msg, (with_retry fn 3).2 = Except.error msg ∧ isTransientError msg = true)
    ∧ with_retry gn 3 = (1, Except.error e) := by
  obtain ⟨e0, h0, t0⟩ := hfn 0 (by omega)
  obtain ⟨e1, h1, t1⟩ := hfn 1 (by omega)
  obtain ⟨e2, h2, t2⟩ := hfn 2 (by omega)
  have hrun : with_retry fn 3 = (3, Except.error e2) := by
    calc with_retry fn 3
        = withRetryAux fn (2 + 1) 0 none := rfl
      _ = withRetryAux fn (1 + 1) 1 (some e0) :=
          withRetryAux_transient_step fn 2 0 none e0 h0 t0
      _ = withRetryAux fn (0 + 1) 2 (some e1) :=
          withRetryAux_transient_step fn 1 1 (some e0) e1 h1 t1
      _ = withRetryAux fn 0 3 (some e2) :=
          withRetryAux_transient_step fn 0 2 (some e1) e2 h2 t2
      _ = (3, Except.error e2) := rfl
  refine ⟨⟨by rw [hrun], e2, by rw [hrun], t2⟩, ?_⟩
  calc with_retry gn 3
      = withRetryAux gn (2 + 1) 0 none := rfl
    _ = (0 + 1, Except.error e) :=
        withRetryAux_permanent_step gn 2 0 none e hgn hperm
    _ = (1, Except.error e) := rfl

/-- C1 (amended): assembly validates only the media records it receives,
never the script. It completes (writing an output) exactly when the
record set is nonempty and every present record's path is truthy and
exists on disk; a script segment that produced no record is silently
omitted rather than failing assembly. -/
theorem C1_assembly_gate_amended (fs : FileSys) (retrieved : List RetrievedClip)
    (veo : List VeoVideo) :
    (∃ out, assembly_node fs retrieved veo = AssemblyResult.completed out) ↔
      ((toClipEntries retrieved veo).isEmpty = false ∧
        ∀ c ∈ toClipEntries retrieved veo, clipGood fs c = true) := by
  constructor
  · rintro ⟨out, hout⟩
    by_cases hE : (toClipEntries retrieved veo).isEmpty = true
    · rw [assembly_node] at hout
      rw [if_pos hE] at hout
      cases hout
    · have hne : (toClipEntries retrieved veo).isEmpty = false := by
        cases h : (toClipEntries retrieved veo).isEmpty
        · rfl
        · exact absurd h hE
      refine ⟨hne, ?_⟩
      intro c hc
      by_contra hbadp
      have hbad : clipGood fs c = false := by
        cases h : clipGood fs c
        · rfl
        · exact absurd h hbadp
      exact assembly_node_not_completed_of_bad fs retrieved veo c hc hbad out hout
  · rintro ⟨hne, hAll⟩
    exact ⟨_, assembly_node_all_good fs retrieved veo hne hAll⟩

/-- Witness for C1 (amended) at a concrete input: one good record is
enough for assembly to complete, whatever the script looked like. -/
theorem C1_assembly_gate_amended_witness :
    ∃ out, assembly_node fsFixture [⟨some 1, some "a.mp4"⟩] []
      = AssemblyResult.completed out :=
  (C1_assembly_gate_amended fsFixture [⟨some 1, some "a.mp4"⟩] []).mpr
    ⟨by decide, by decide⟩

/-- C1 (counterexample): in `scriptTwoClips`, segment 2's retrieval raises
("boom"), so it produces no local media, no record, and no failure entry;
yet assembly over the resulting state completes and writes an output
containing only segment 1's clip — refuting "if any segment of the script
fails to produce local media, then assembly fails ... and no output video
file is written". -/
theorem C1_assembly_gate_counterexample :
    (media_production_logic venvAllOk cenvSeg2Fails (some scriptTwoClips)).retrieved_clips
        = some [⟨1, "q1", none, some "cut1.mp4"⟩]
    ∧ (media_production_logic venvAllOk cenvSeg2Fails (some scriptTwoClips)).veo_failed_videos
        = some []
    ∧ assembly_node fsFixture
        ([ClipRecord.mk 1 "q1" none (some "cut1.mp4")].map toRetrievedClip)
        (([] : List (GenResult × String)).map toVeoVideo)
        = AssemblyResult.completed ["cut1.mp4"] := by
  refine ⟨by decide, by decide, by decide⟩

/-- C2: when the script's orders are distinct, every segment produced
exactly one record (the record orders are a permutation of the script's
segment orders) and every record's file exists, assembly completes and
the concatenated unit sequence is the records arranged strictly ascending
by order — i.e. the ascending sort of the script's segment orders. -/
theorem C2_assembly_ordering (fs : FileSys) (script : Script)
    (retrieved : List RetrievedClip) (veo : List VeoVideo)
    (hperm : ((toClipEntries retrieved veo).map ClipEntry.order).Perm
      (script.segments.map Seg.order))
    (hdist : (script.segments.map Seg.order).Pairwise (fun a b => a ≠ b))
    (hne : (toClipEntries retrieved veo).isEmpty = false)
    (hAll : ∀ c ∈ toClipEntries retrieved veo, clipGood fs c = true) :
    ∃ rs : List ClipEntry,
      assembly_node fs retrieved veo
        = AssemblyResult.completed (rs.map (fun c => c.path.getD ""))
      ∧ rs.Perm (toClipEntries retrieved veo)
      ∧ rs.Pairwise (fun a b => a.order < b.order)
      ∧ rs.map ClipEntry.order
          = List.insertionSort (fun a b => a ≤ b) (script.segments.map Seg.order) := by
  have hdistRec : (toClipEntries retrieved veo).Pairwise (fun a b => a.order ≠ b.order) := by
    have h1 : ((toClipEntries retrieved veo).map ClipEntry.order).Pairwise
        (fun a b : Int => a ≠ b) :=
      (List.Perm.pairwise_iff (fun h => h.symm) hperm).mpr hdist
    exact List.pairwise_map.mp h1
  have hdistSorted : (sortClips (toClipEntries retrieved veo)).Pairwise
      (fun a b => a.order ≠ b.order) :=
    (List.Perm.pairwise_iff (fun h => h.symm)
      (List.perm_insertionSort clipLE (toClipEntries retrieved veo))).mpr hdistRec
  have hsorted : (sortClips (toClipEntries retrieved veo)).Pairwise clipLE :=
    List.sorted_insertionSort clipLE (toClipEntries retrieved veo)
  have hlt : (sortClips (toClipEntries retrieved veo)).Pairwise
      (fun a b => a.order < b.order) :=
    (hsorted.and hdistSorted).imp (fun h => lt_of_le_of_ne h.1 h.2)
  refine ⟨sortClips (toClipEntries retrieved veo),
    assembly_node_all_good fs retrieved veo hne hAll,
    List.perm_insertionSort clipLE _, hlt, ?_⟩
  have hmapSorted : ((sortClips (toClipEntries retrieved veo)).map ClipEntry.order).Sorted
      (fun a b : Int => a ≤ b) :=
    List.pairwise_map.mpr hsorted
  have hsortSorted : (List.insertionSort (fun a b : Int => a ≤ b)
      (script.segments.map Seg.order)).Sorted (fun a b : Int => a ≤ b) :=
    List.sorted_insertionSort _ _
  have hpermChain : ((sortClips (toClipEntries retrieved veo)).map ClipEntry.order).Perm
      (List.insertionSort (fun a b : Int => a ≤ b) (script.segments.map Seg.order)) :=
    ((List.perm_insertionSort clipLE _).map ClipEntry.order).trans
      (hperm.trans (List.perm_insertionSort _ _).symm)
  exact List.eq_of_perm_of_sorted hpermChain hmapSorted hsortSorted

/-- Witness for C2 at the concrete mixed script (orders 1,2,3; records
listed out of order): assembly completes with the clips in ascending
order. -/
theorem C2_assembly_ordering_witness :
    ∃ rs : List ClipEntry,
      assembly_node fsFixture retrievedFix veoFix
        = AssemblyResult.completed (rs.map (fun c => c.path.getD ""))
      ∧ rs.Perm (toClipEntries retrievedFix veoFix)
      ∧ rs.Pairwise (fun a b => a.order < b.order)
      ∧ rs.map ClipEntry.order
          = List.insertionSort (fun a b => a ≤ b) (scriptMixed.segments.map Seg.order) :=
  C2_assembly_ordering fsFixture scriptMixed retrievedFix veoFix
    (by decide) (by decide) (by decide) (by decide)

/-- Witness for C4 at concrete calls: a permanently overloaded call is
attempted 3 times and surfaces an error; a bad-input call is attempted
once and its error propagates as is. -/
theorem C4_retry_ceiling_witness :
    ((with_retry (fun _ => (Except.error "503 overloaded" : Except String Unit)) 3).1 = 3 ∧
      ∃ msg, (with_retry (fun _ => (Except.error "503 overloaded" : Except String Unit)) 3).2
        = Except.error msg ∧ isTransientError msg = true)
    ∧ with_retry (fun _ => (Except.error "bad input" : Except String Unit)) 3
        = (1, Except.error "bad input") :=
  C4_retry_ceiling (fun _ => Except.error "503 overloaded")
    (fun _ => Except.error "bad input") "bad input"
    (fun _ _ => ⟨"503 overloaded", rfl, by decide⟩) rfl (by decide)

/-- A record kept by `process_clip_workflow` (truthy `video_path`) can
only come from the success branch of `process_single_clip`, so its
`error` field is `None`. -/
theorem process_single_clip_truthy_no_error (env : ClipEnv) (seg : Seg)
    (r : ClipRecord) (h : process_single_clip env seg = some r)
    (ht : truthyStr r.video_path = true) : r.error = none := by
  unfold process_single_clip at h
  repeat' split at h
  all_goals first
    | (injection h; done)
    | (injection h with h'; subst h'; first
        | rfl
        | simp [truthyStr] at ht)

/-- Every segment of the filtered list appears, with some delay, among
the staggered tasks. -/
theorem mem_staggerTasks :
    ∀ (l : List Seg) (s : Seg), s ∈ l → ∀ i, ∃ d, (s, d) ∈ staggerTasks i l := by
  intro l
  induction l with
  | nil => intro s h; cases h
  | cons a t ih =>
    intro s h i
    rcases List.mem_cons.mp h with h1 | h2
    · subst h1
      exact ⟨i * 6, by simp [staggerTasks]⟩
    · obtain ⟨d, hd⟩ := ih s h2 (i + 1)
      exact ⟨d, by simp [staggerTasks, hd]⟩

/-- A failed generation turns into an error record carrying the
segment's order. -/
theorem process_single_segment_fst_error (env : VeoEnv) (seg : Seg) (d : Nat)
    (e : String) (h : env.generate seg = Except.error e) :
    (process_single_segment env seg d).1 = SegStatus.error e seg.order := by
  simp [process_single_segment, h]

/-- C3 (amended): for every environment and script, the Coordinator
reports phase `media_produced` (never failed); every surviving retrieved
record is a success (truthy path, no error) — a retrieval failure leaves
no record at all; and a generation failure of an AI segment is recorded
in `veo_failed_videos` with that segment's order while all other tasks
still produce their own outcomes. -/
theorem C3_partial_failure_amended (venv : VeoEnv) (cenv : ClipEnv) (script : Script) :
    (media_production_logic venv cenv (some script)).current_phase = some "media_produced"
    ∧ (∀ r ∈ (media_production_logic venv cenv (some script)).retrieved_clips.getD [],
        truthyStr r.video_path = true ∧ r.error = none)
    ∧ (∀ seg ∈ aiSegments script, ∀ e, venv.generate seg = Except.error e →
        (e, seg.order) ∈ (media_production_logic venv cenv (some script)).veo_failed_videos.getD []) := by
  refine ⟨rfl, ?_, ?_⟩
  · intro r hr
    have hr' : r ∈ process_clip_workflow cenv script := hr
    rw [process_clip_workflow] at hr'
    have hfil := List.mem_filter.mp hr'
    refine ⟨hfil.2, ?_⟩
    obtain ⟨a, ha, hid⟩ := List.mem_filterMap.mp hfil.1
    obtain ⟨seg, hseg, hps⟩ := List.mem_map.mp ha
    subst hps
    exact process_single_clip_truthy_no_error cenv seg r hid hfil.2
  · intro seg hseg e he
    obtain ⟨d, hd⟩ := mem_staggerTasks (aiSegments script) seg hseg 0
    have hres : SegStatus.error e seg.order ∈
        (veoTasks script).map (fun t => (process_single_segment venv t.1 t.2).1) := by
      refine List.mem_map.mpr ⟨(seg, d), hd, ?_⟩
      exact process_single_segment_fst_error venv seg d e he
    show (e, seg.order) ∈ (process_veo_segments venv script).failed
    rw [process_veo_segments]
    exact List.mem_filterMap.mpr ⟨SegStatus.error e seg.order, hres, rfl⟩

/-- Witness for C3 (amended): with generation failing for segment 3 of
the mixed script, the Coordinator still reports `media_produced` and
lists ("veo down", 3) under the failed videos. -/
theorem C3_partial_failure_amended_witness :
    (media_production_logic venvSeg3Fails cenvSeg2Fails (some scriptMixed)).current_phase
        = some "media_produced"
    ∧ ("veo down", (3 : Int)) ∈
        (media_production_logic venvSeg3Fails cenvSeg2Fails (some scriptMixed)).veo_failed_videos.getD [] := by
  have h := C3_partial_failure_amended venvSeg3Fails cenvSeg2Fails scriptMixed
  exact ⟨h.1, h.2.2 ⟨3, "ai_generated", 8, none⟩ (by decide) "veo down" rfl⟩

/-- C3 (counterexample): segment 2's retrieval task raises ("boom");
the other segment completes and the Coordinator reports
`media_produced`, but segment 2 appears in no reported failure record:
the retrieved clips hold only segment 1 and the failed-videos list is
empty — refuting "segment k appears in the reported failure records". -/
theorem C3_partial_failure_counterexample :
    (media_production_logic venvAllOk cenvSeg2Fails (some scriptTwoClips)).current_phase
        = some "media_produced"
    ∧ (media_production_logic venvAllOk cenvSeg2Fails (some scriptTwoClips)).retrieved_clips
        = some [⟨1, "q1", none, some "cut1.mp4"⟩]
    ∧ (media_production_logic venvAllOk cenvSeg2Fails (some scriptTwoClips)).veo_failed_videos
        = some [] := by
  refine ⟨by decide, by decide, by decide⟩

/-- The stagger sleep precedes the first remote call, so the delay before
the first remote call is exactly the `delay` argument. -/
theorem delayBeforeFirstCall_pre (d : Nat) (x : String) (rest : List Event) :
    delayBeforeFirstCall ((if d > 0 then [Event.sleep d] else [])
      ++ (Event.remoteCall x :: rest)) = d := by
  by_cases hd : d > 0
  · simp [hd, delayBeforeFirstCall]
  · have h0 : d = 0 := by omega
    simp [hd, h0, delayBeforeFirstCall]

/-- Each segment task sleeps exactly its delay argument before its first
remote call, whatever the environment answers. -/
theorem delayBeforeFirstCall_process (env : VeoEnv) (seg : Seg) (d : Nat) :
    delayBeforeFirstCall (process_single_segment env seg d).2 = d := by
  unfold process_single_segment
  cases hg : env.generate seg with
  | error e =>
    exact delayBeforeFirstCall_pre d "generate" []
  | ok r =>
    cases hdl : env.download r.video_uri
        (veo_video_dir ++ "/veo_segment_" ++ toString seg.order ++ ".mp4") with
    | error e => simp only [hdl]; exact delayBeforeFirstCall_pre d "generate" [Event.remoteCall "download"]
    | ok u => simp only [hdl]; exact delayBeforeFirstCall_pre d "generate" [Event.remoteCall "download"]

/-- The `i`-th staggered task (0-based, offset `j`) pairs the `i`-th
segment with delay `(j+i)*6`. -/
theorem staggerTasks_get? :
    ∀ (l : List Seg) (j i : Nat),
      (staggerTasks j l).get? i = (l.get? i).map (fun s => (s, (j + i) * 6)) := by
  intro l
  induction l with
  | nil => intro j i; simp [staggerTasks]
  | cons a t ih =>
    intro j i
    cases i with
    | zero => simp [staggerTasks]
    | succ m =>
      have harith : j + 1 + m = j + (m + 1) := by omega
      simp only [staggerTasks, List.get?_cons_succ, ih (j + 1) m, harith]

/-- C6: the `i`-th AI segment's task (0-based, in script order) is
scheduled with delay `i*6` and sleeps exactly `i*6` seconds before its
first remote call; each task's outcome is a function of its own segment
and environment only. -/
theorem C6_stagger_schedule (script : Script) (env : VeoEnv) (i : Nat)
    (h : i < (aiSegments script).length) :
    (veoTasks script).get? i = some ((aiSegments script).get ⟨i, h⟩, i * 6)
    ∧ delayBeforeFirstCall
        (process_single_segment env ((aiSegments script).get ⟨i, h⟩) (i * 6)).2 = i * 6 := by
  constructor
  · rw [veoTasks, staggerTasks_get? _ 0 i]
    rw [List.get?_eq_get h]
    simp
  · exact delayBeforeFirstCall_process env _ _

/-- Witness for C6 on the mixed script (two AI segments): the second task
is delayed by exactly 6 seconds. -/
theorem C6_stagger_schedule_witness :
    (veoTasks scriptMixed).get? 1 = some (⟨3, "ai_generated", 8, none⟩, 6)
    ∧ delayBeforeFirstCall
        (process_single_segment venvAllOk ⟨3, "ai_generated", 8, none⟩ 6).2 = 6 := by
  have h := C6_stagger_schedule scriptMixed venvAllOk 1 (by decide)
  exact h

/-- C7 (amended): the controller's edges are unconditional, so every
stage function is invoked in the fixed order regardless of any stage's
failure status; a non-completed phase does not skip downstream stages. -/
theorem C7_unconditional_routing_amended (env : GraphEnv) (s0 : NState) :
    (run_graph env s0).2
      = ["search_fanout", "researcher", "script_generator", "media_production", "assembly"] := by
  rfl

/-- C7 (counterexample): with no research queries the research stage
writes `research_failed`, yet the script-generation stage function is
still invoked (it runs and overwrites the phase with `script_failed`),
and the run continues through every downstream stage to assembly —
refuting "no downstream stage function is invoked". -/
theorem C7_failfast_counterexample :
    (research_node genvNoQueries
        (fanout_search_node genvNoQueries (initial_state "p"))).current_phase
      = "research_failed"
    ∧ "script_generator" ∈ (run_graph genvNoQueries (initial_state "p")).2
    ∧ (script_generation_node genvNoQueries (research_node genvNoQueries
        (fanout_search_node genvNoQueries (initial_state "p")))).current_phase
      = "script_failed"
    ∧ (run_graph genvNoQueries (initial_state "p")).1.current_phase = "assembly_failed" := by
  refine ⟨by decide, by decide, by decide, by decide⟩

/-- C8: with the two-credential pool ["k1","k2"], generating the first
segment submits with credential "k2" (refinement consumed "k1"), and the
generation result returns "k2" as the key needed for download; but the
orchestration download call passes no key, so `download_video` falls back
to `api_keys[0] = "k1"` — the fetch does NOT use the credential returned
with the generation result. -/
theorem C8_download_credential_mismatch :
    (generate_video_key ⟨["k1", "k2"], 0⟩).1 = "k2"
    ∧ orchestration_download_key ["k1", "k2"] = Except.ok "k1"
    ∧ (("k2" : String) == "k1") = false := by
  refine ⟨rfl, rfl, by decide⟩

end SuperHack
